import Mathlib

/-!
A shallow embedding of the Ara 3d Array Library (`array.h`): a family of
bounded-sequence abstractions (owning array, mutable and immutable contiguous
views, index-strided slices, byte-strided views, function-generated sequences)
sharing one traversal and indexing contract.

Modelling conventions:
* A raw element pointer (`ValueT*`, the iterator of `array_view` and friends)
  is modelled as a `Nat` address in element units; the contents of contiguous
  storage are an abstract heap `Nat → T`, and a write updates it pointwise.
* A `const char*` byte pointer (the field of `mem_stride_iterator` and
  `const_mem_stride_iterator`) is modelled as an `Int` byte address; the
  T-sized value stored at a byte address is given by an abstract typed read
  function `Int → T` (the embedding of the reinterpreting dereference
  `*(T*)p`).
* `new T[n]` is modelled by a bump allocator over the element heap that
  default-constructs the `n` fresh cells; `delete[] p` is modelled by the
  list of blocks a destructor releases.
* Each C++ class becomes a structure (or an abbreviation of one of the two
  bases, mirroring the inheritance), with its member functions as Lean
  functions of the same name where Lean allows it (`end` is a Lean keyword,
  so `end()` is called `end_` here; `operator[]` is `read` and, for mutable
  bases, `write`).
-/

namespace ara3d

/-- The operations the library requires of an iterator type: `operator+`
(random-access offset), `operator++` (advance by one) and `operator==`
(the only runtime-checkable condition, used to detect the end of a
traversal).  Each iterator class of `array.h` provides these. -/
class IterOps (ι : Type) where
  add : ι → Nat → ι
  inc : ι → ι
  ibeq : ι → ι → Bool

/-- A raw element pointer `ValueT*` is an address in element units:
`p + n` offsets by `n` elements, `++p` by one, `==` compares addresses. -/
instance : IterOps Nat where
  add p n := p + n
  inc p := p + 1
  ibeq p q := p == q

/-- Dereference of the element pointer `p` under heap `h`: `*p`. -/
def ptrDeref {T : Type} (h : Nat → T) (p : Nat) : T := h p

/-- `operator[]` of a raw element pointer: `p[n] = *(p + n)`. -/
def ptrIndex {T : Type} (h : Nat → T) (p : Nat) (n : Nat) : T := h (p + n)

/-- Pointwise heap update: the effect of an assignment `*p = v` on the
abstract contents of contiguous storage. -/
def hwrite {T : Type} (h : Nat → T) (p : Nat) (v : T) : Nat → T :=
  fun x => if x = p then v else h x

/-- `mem_stride_iterator<T, OffsetN>`: a byte pointer `const char* _data`
advanced by `OffsetN` bytes per step (`array.h` lines 52-71).  The element
type is carried by the read function at dereference time. -/
structure mem_stride_iterator (O : Nat) where
  _data : Int

/-- `operator+`, `operator++`, `operator==` of `mem_stride_iterator`:
`_data + OffsetN * n`, `_data += OffsetN`, `_data == iter._data`. -/
instance {O : Nat} : IterOps (mem_stride_iterator O) where
  add it n := ⟨it._data + (O : Int) * (n : Int)⟩
  inc it := ⟨it._data + (O : Int)⟩
  ibeq a b := a._data == b._data

/-- `mem_stride_iterator::operator[]`: `*(T*)(_data + OffsetN * n)`,
the T-sized value at byte address `_data + OffsetN * n`. -/
def mem_stride_iterator.index {O : Nat} {T : Type} (mem : Int → T)
    (it : mem_stride_iterator O) (n : Nat) : T :=
  mem (it._data + (O : Int) * (n : Int))

/-- `mem_stride_iterator::operator-`: raw byte-pointer difference
`_data - iter._data` (a `ptrdiff_t`). -/
def mem_stride_iterator.sub {O : Nat} (a b : mem_stride_iterator O) : Int :=
  a._data - b._data

/-- `const_mem_stride_iterator<T, OffsetN>`: the read-only byte-stride
iterator (`array.h` lines 73-92); same representation, read-only access. -/
structure const_mem_stride_iterator (O : Nat) where
  _data : Int

/-- `operator+`, `operator++`, `operator==` of `const_mem_stride_iterator`. -/
instance {O : Nat} : IterOps (const_mem_stride_iterator O) where
  add it n := ⟨it._data + (O : Int) * (n : Int)⟩
  inc it := ⟨it._data + (O : Int)⟩
  ibeq a b := a._data == b._data

/-- `const_mem_stride_iterator::operator[]`: `*(const T*)(_data + OffsetN * n)`. -/
def const_mem_stride_iterator.index {O : Nat} {T : Type} (mem : Int → T)
    (it : const_mem_stride_iterator O) (n : Nat) : T :=
  mem (it._data + (O : Int) * (n : Int))

/-- `const_mem_stride_iterator::operator-`: raw byte difference. -/
def const_mem_stride_iterator.sub {O : Nat} (a b : const_mem_stride_iterator O) : Int :=
  a._data - b._data

/-- `func_array_iterator<F>`: a stored callable `_func` plus a current index
`_i` (`array.h` lines 94-114).  Dereference invokes the callable. -/
structure func_array_iterator (T : Type) where
  _func : Nat → T
  _i : Nat

/-- `operator+` (`func_array_iterator(_func, _i + n)`), `operator++`
(`operator+=(1)`), `operator==` (compares `_i` only; the callables are not
compared). -/
instance {T : Type} : IterOps (func_array_iterator T) where
  add it n := ⟨it._func, it._i + n⟩
  inc it := ⟨it._func, it._i + 1⟩
  ibeq a b := a._i == b._i

/-- `func_array_iterator::operator[]`: `_func(_i + n)`. -/
def func_array_iterator.index {T : Type} (it : func_array_iterator T) (n : Nat) : T :=
  it._func (it._i + n)

/-- Instrumented form of `func_array_iterator::operator[]`: the body
`return _func(_i + n);` performs exactly one invocation of the stored
callable, with argument `_i + n`; the second component records the list of
arguments the callable is invoked with during this access. -/
def func_array_iterator.indexCalls {T : Type} (it : func_array_iterator T) (n : Nat) :
    T × List Nat :=
  (it._func (it._i + n), [it._i + n])

/-- `const_strided_iterator<IterT>`: wraps an inner iterator and a stride
factor (`array.h` lines 116-137). -/
structure const_strided_iterator (ι : Type) where
  _iter : ι
  _stride : Nat

/-- `operator+` (`const_strided_iterator(_iter + _stride * n, _stride)`),
`operator++` (`_iter += _stride`), `operator==` (compares `_iter` only). -/
instance {ι : Type} [IterOps ι] : IterOps (const_strided_iterator ι) where
  add it n := ⟨IterOps.add it._iter (it._stride * n), it._stride⟩
  inc it := ⟨IterOps.add it._iter it._stride, it._stride⟩
  ibeq a b := IterOps.ibeq a._iter b._iter

/-- `const_strided_iterator::operator[]`: `_iter[n * _stride]`, where `idx`
is the inner iterator's `operator[]`. -/
def const_strided_iterator.index {ι T : Type} (idx : ι → Nat → T)
    (it : const_strided_iterator ι) (n : Nat) : T :=
  idx it._iter (n * it._stride)

/-- `const_array_base<T, IterT>` (`array.h` lines 139-160): an iterator to
the start plus an element count. -/
structure const_array_base (ι : Type) where
  _iter : ι
  _size : Nat

/-- `const_array_base::begin`: returns `_iter`. -/
def const_array_base.begin {ι : Type} (a : const_array_base ι) : ι := a._iter

/-- `const_array_base::size`: returns `_size`. -/
def const_array_base.size {ι : Type} (a : const_array_base ι) : Nat := a._size

/-- `const_array_base::end`: `begin() + size()`, never stored. -/
def const_array_base.end_ {ι : Type} [IterOps ι] (a : const_array_base ι) : ι :=
  IterOps.add a.begin a.size

/-- `const_array_base::empty`: `size() == 0`. -/
def const_array_base.empty {ι : Type} (a : const_array_base ι) : Bool :=
  a.size == 0

/-- `const_array_base::operator[]` when the iterator is a raw element
pointer: `begin()[n]` under heap `h`. -/
def const_array_base.read {T : Type} (h : Nat → T) (a : const_array_base Nat)
    (n : Nat) : T :=
  ptrIndex h a.begin n

/-- `array_base<T, IterT, ConstIterT>` (`array.h` lines 162-188): the
mutable base; same representation, adds a mutable `operator[]`. -/
structure array_base (ι : Type) where
  _iter : ι
  _size : Nat

/-- `array_base::begin`. -/
def array_base.begin {ι : Type} (a : array_base ι) : ι := a._iter

/-- `array_base::size`. -/
def array_base.size {ι : Type} (a : array_base ι) : Nat := a._size

/-- `array_base::end`: `begin() + size()`, never stored. -/
def array_base.end_ {ι : Type} [IterOps ι] (a : array_base ι) : ι :=
  IterOps.add a.begin a.size

/-- `array_base::empty`: `size() == 0`. -/
def array_base.empty {ι : Type} (a : array_base ι) : Bool :=
  a.size == 0

/-- `array_base::operator[] const` over a raw element pointer: `begin()[n]`. -/
def array_base.read {T : Type} (h : Nat → T) (a : array_base Nat) (n : Nat) : T :=
  ptrIndex h a.begin n

/-- The effect of an assignment through the mutable `array_base::operator[]`
over a raw element pointer: `begin()[n] = v` updates the storage cell at
address `begin() + n`. -/
def array_base.write {T : Type} (h : Nat → T) (a : array_base Nat) (n : Nat)
    (v : T) : Nat → T :=
  hwrite h (a.begin + n) v

/-- `array_view<ValueT>` (`array.h` lines 227-236): `array_base` with the
raw element pointer `ValueT*` as iterator; the element type lives in the
heap functions. -/
abbrev array_view : Type := array_base Nat

/-- `const_array_view<ValueT>` (`array.h` lines 238-247). -/
abbrev const_array_view : Type := const_array_base Nat

/-- `array_slice<ArrayT>` (`array.h` lines 190-201): an `array_base` over
the source's iterator type (here: the raw element pointer). -/
abbrev array_slice : Type := array_base Nat

/-- `const_array_stride<ArrayT>` (`array.h` lines 215-225): a
`const_array_base` whose iterator is a `const_strided_iterator` over the
source's iterator. -/
abbrev const_array_stride (ι : Type) : Type := const_array_base (const_strided_iterator ι)

/-- `const_array_mem_stride<ValueT, OffsetN>` (`array.h` lines 249-258). -/
abbrev const_array_mem_stride (O : Nat) : Type := const_array_base (const_mem_stride_iterator O)

/-- `array_mem_stride<ValueT, OffsetN>` (`array.h` lines 260-271). -/
abbrev array_mem_stride (O : Nat) : Type := array_base (mem_stride_iterator O)

/-- `func_array<F>` (`array.h` lines 273-278). -/
abbrev func_array (T : Type) : Type := const_array_base (func_array_iterator T)

/-- `array<T>` (`array.h` lines 280-286): derived from `array_view<T>`, so
it is the same cursor/length pair, plus allocation on construction and
deallocation on destruction. -/
abbrev array : Type := array_base Nat

/-- The constructor `array_slice(begin, size)` as used for sub-range
composition (spec section 4.7): the source's begin cursor advanced by
`offset`, with `len` as the new size. -/
def array_slice.subrange (src : array_base Nat) (offset len : Nat) : array_slice :=
  ⟨IterOps.add src.begin offset, len⟩

/-- The constructor `const_array_stride(begin, size, stride)`: stores
`IterT(begin, stride)` and `size` (`array.h` line 224). -/
def const_array_stride.mkStride {ι : Type} (b : ι) (size stride : Nat) :
    const_array_stride ι :=
  ⟨⟨b, stride⟩, size⟩

/-- `const_array_stride::operator[]` over a raw-element-pointer source:
`begin()[n]` where the iterator's `operator[]` is
`const_strided_iterator::operator[]`. -/
def const_array_stride.read {T : Type} (h : Nat → T) (a : const_array_stride Nat)
    (n : Nat) : T :=
  const_strided_iterator.index (ptrIndex h) a.begin n

/-- The constructor `const_array_mem_stride(begin, size)`: stores
`IterT(begin)` and `size` (`array.h` line 257); `b` is the byte address of
the first element. -/
def const_array_mem_stride.mkMem {O : Nat} (b : Int) (size : Nat) :
    const_array_mem_stride O :=
  ⟨⟨b⟩, size⟩

/-- `const_array_mem_stride::operator[]`: `begin()[n]` via
`const_mem_stride_iterator::operator[]`. -/
def const_array_mem_stride.read {O : Nat} {T : Type} (mem : Int → T)
    (a : const_array_mem_stride O) (n : Nat) : T :=
  const_mem_stride_iterator.index mem a.begin n

/-- The constructor `array_mem_stride(begin, size)` (`array.h` line 270). -/
def array_mem_stride.mkMem {O : Nat} (b : Int) (size : Nat) : array_mem_stride O :=
  ⟨⟨b⟩, size⟩

/-- `array_mem_stride::operator[] const`: `begin()[n]` via
`mem_stride_iterator::operator[]`. -/
def array_mem_stride.read {O : Nat} {T : Type} (mem : Int → T)
    (a : array_mem_stride O) (n : Nat) : T :=
  mem_stride_iterator.index mem a.begin n

/-- The constructor `func_array(func, size)`: stores `IterT(func)` — whose
current index `_i` defaults to 0 — and `size` (`array.h` line 277). -/
def func_array.mkFunc {T : Type} (f : Nat → T) (size : Nat) : func_array T :=
  ⟨⟨f, 0⟩, size⟩

/-- `func_array::operator[]`: `begin()[n]` via
`func_array_iterator::operator[]`. -/
def func_array.read {T : Type} (a : func_array T) (n : Nat) : T :=
  func_array_iterator.index a.begin n

/-- Instrumented `func_array::operator[]`: the value produced together with
the list of arguments the stored callable is invoked with during this one
access (see `func_array_iterator.indexCalls`). -/
def func_array.readCalls {T : Type} (a : func_array T) (n : Nat) : T × List Nat :=
  func_array_iterator.indexCalls a.begin n

/-- The allocation state backing owning arrays: the contents of element
storage plus a bump pointer marking the first never-allocated address. -/
structure AllocState (T : Type) where
  heap : Nat → T
  next : Nat

/-- The constructor `array(size)`: `BaseT(new T[size], size)` — allocates a
fresh block of `size` cells, default-constructs each, and the sequence's
cursor points at the block (`array.h` line 284). -/
def array.new {T : Type} [Inhabited T] (st : AllocState T) (size : Nat) :
    array × AllocState T :=
  (⟨st.next, size⟩,
   ⟨fun x => if st.next ≤ x ∧ x < st.next + size then default else st.heap x,
    st.next + size⟩)

/-- The destructor `~array()`: `delete[] begin()` — releases exactly the
block at `begin()`; the result lists the blocks this destructor frees
(`array.h` line 285). -/
def array.destroy (a : array) : List Nat := [a.begin]

/-- The (implicitly defined, trivial) destructor of every non-owning
variant built on `array_base` — `array_view`, `array_slice`,
`array_mem_stride`: it releases nothing. -/
def array_base.destroy {ι : Type} (_ : array_base ι) : List Nat := []

/-- The (implicitly defined, trivial) destructor of every non-owning
variant built on `const_array_base` — `const_array_view`,
`const_array_slice`, `const_array_stride`, `const_array_mem_stride`,
`func_array`: it releases nothing. -/
def const_array_base.destroy {ι : Type} (_ : const_array_base ι) : List Nat := []

/-- Constructing an `array_view<T>` from an `array<T>`: `array` derives
from `array_view`, so the view is the array's own cursor/length pair. -/
def array_view.ofArray (a : array) : array_view := ⟨a.begin, a.size⟩

/-- Constructing a `const_array_view<T>` from an `array<T>`:
`const_array_view<T>(a.begin(), a.size())`. -/
def const_array_view.ofArray (a : array) : const_array_view := ⟨a.begin, a.size⟩

/-- `k` applications of `operator++` starting from `it`: the cursor a
range-based for loop holds after visiting `k` elements. -/
def iterN {ι : Type} [IterOps ι] : Nat → ι → ι
  | 0, it => it
  | k + 1, it => iterN k (IterOps.inc it)

/-- The loop `for (it = b; it != e; ++it)` visits exactly `n` elements:
after each of the first `n - 1` increments the cursor still compares
unequal to `e` (so the loop continues), and after `n` increments it
compares equal (so the loop stops). -/
def visitsExactly {ι : Type} [IterOps ι] (b e : ι) (n : Nat) : Prop :=
  (∀ k, k < n → IterOps.ibeq (iterN k b) e = false) ∧
    IterOps.ibeq (iterN n b) e = true

/-! Helper lemmas: closed forms for `k` increments of each iterator kind. -/

theorem iterN_ptr (k p : Nat) : iterN k p = p + k := by
  induction k generalizing p with
  | zero => rfl
  | succ k ih =>
    show iterN k (p + 1) = p + (k + 1)
    rw [ih]; omega

theorem iterN_mem {O : Nat} (k : Nat) (d : Int) :
    iterN k (⟨d⟩ : mem_stride_iterator O) = ⟨d + (O : Int) * (k : Int)⟩ := by
  induction k generalizing d with
  | zero => simp [iterN]
  | succ k ih =>
    show iterN k (⟨d + (O : Int)⟩ : mem_stride_iterator O) = _
    rw [ih]
    congr 1
    push_cast
    ring

theorem iterN_cmem {O : Nat} (k : Nat) (d : Int) :
    iterN k (⟨d⟩ : const_mem_stride_iterator O) = ⟨d + (O : Int) * (k : Int)⟩ := by
  induction k generalizing d with
  | zero => simp [iterN]
  | succ k ih =>
    show iterN k (⟨d + (O : Int)⟩ : const_mem_stride_iterator O) = _
    rw [ih]
    congr 1
    push_cast
    ring

theorem iterN_func {T : Type} (k : Nat) (f : Nat → T) (i : Nat) :
    iterN k (⟨f, i⟩ : func_array_iterator T) = ⟨f, i + k⟩ := by
  induction k generalizing i with
  | zero => rfl
  | succ k ih =>
    show iterN k (⟨f, i + 1⟩ : func_array_iterator T) = _
    rw [ih]
    congr 1
    omega

theorem iterN_strided (k p s : Nat) :
    iterN k (⟨p, s⟩ : const_strided_iterator Nat) = ⟨p + s * k, s⟩ := by
  induction k generalizing p with
  | zero => simp [iterN]
  | succ k ih =>
    show iterN k (⟨p + s, s⟩ : const_strided_iterator Nat) = _
    rw [ih]
    congr 1
    ring

/-! Helper lemmas: each iterator kind walks its bounded sequence in exactly
`size` increments, provided its stride parameter (if any) is nonzero. -/

theorem visitsExactly_ptr (p n : Nat) : visitsExactly (ι := Nat) p (IterOps.add p n) n := by
  constructor
  · intro k hk
    rw [iterN_ptr]
    show (p + k == p + n) = false
    exact beq_eq_false_iff_ne.mpr (by omega)
  · rw [iterN_ptr]
    show (p + n == p + n) = true
    exact beq_self_eq_true _

theorem visitsExactly_mem {O : Nat} (hO : 0 < O) (d : Int) (n : Nat) :
    visitsExactly (ι := mem_stride_iterator O) ⟨d⟩ (IterOps.add ⟨d⟩ n) n := by
  constructor
  · intro k hk
    rw [iterN_mem]
    show (d + (O : Int) * (k : Int) == d + (O : Int) * (n : Int)) = false
    refine beq_eq_false_iff_ne.mpr fun heq => ?_
    have hOk : ((O : Int)) ≠ 0 := by exact_mod_cast Nat.pos_iff_ne_zero.mp hO
    have hkn : (k : Int) = (n : Int) := mul_left_cancel₀ hOk (by linarith)
    have : k = n := by exact_mod_cast hkn
    omega
  · rw [iterN_mem]
    show (d + (O : Int) * (n : Int) == d + (O : Int) * (n : Int)) = true
    exact beq_self_eq_true _

theorem visitsExactly_cmem {O : Nat} (hO : 0 < O) (d : Int) (n : Nat) :
    visitsExactly (ι := const_mem_stride_iterator O) ⟨d⟩ (IterOps.add ⟨d⟩ n) n := by
  constructor
  · intro k hk
    rw [iterN_cmem]
    show (d + (O : Int) * (k : Int) == d + (O : Int) * (n : Int)) = false
    refine beq_eq_false_iff_ne.mpr fun heq => ?_
    have hOk : ((O : Int)) ≠ 0 := by exact_mod_cast Nat.pos_iff_ne_zero.mp hO
    have hkn : (k : Int) = (n : Int) := mul_left_cancel₀ hOk (by linarith)
    have : k = n := by exact_mod_cast hkn
    omega
  · rw [iterN_cmem]
    show (d + (O : Int) * (n : Int) == d + (O : Int) * (n : Int)) = true
    exact beq_self_eq_true _

theorem visitsExactly_func {T : Type} (f : Nat → T) (n : Nat) :
    visitsExactly (ι := func_array_iterator T) ⟨f, 0⟩ (IterOps.add ⟨f, 0⟩ n) n := by
  constructor
  · intro k hk
    rw [iterN_func]
    show (0 + k == 0 + n) = false
    exact beq_eq_false_iff_ne.mpr (by omega)
  · rw [iterN_func]
    show (0 + n == 0 + n) = true
    exact beq_self_eq_true _

theorem visitsExactly_strided (p s : Nat) (hs : 0 < s) (n : Nat) :
    visitsExactly (ι := const_strided_iterator Nat) ⟨p, s⟩ (IterOps.add ⟨p, s⟩ n) n := by
  constructor
  · intro k hk
    rw [iterN_strided]
    show (p + s * k == p + s * n) = false
    refine beq_eq_false_iff_ne.mpr fun heq => ?_
    have hsk : s * k = s * n := by omega
    have : k = n := Nat.eq_of_mul_eq_mul_left hs hsk
    omega
  · rw [iterN_strided]
    show (p + s * n == p + s * n) = true
    exact beq_self_eq_true _

/-- Claim C1 (amended): for every bounded sequence variant — the contiguous
mutable base underlying `array`, `array_view` and `array_slice`, the
contiguous const base underlying `const_array_view` and `const_array_slice`,
both byte-strided views, the function sequence, and the index-strided
slice — `end()` equals `begin()` advanced by `size()` (it is computed as
`begin() + size()`, never stored), and, provided any element-stride or
byte-stride parameter is nonzero, iterating from `begin()` by repeated
increment until equality with `end()` visits exactly `size()` elements. -/
theorem C1_begin_end_traversal (p n stride O : Nat) (d : Int) (f : Nat → Nat)
    (hs : 0 < stride) (hO : 0 < O) :
    ((array_base.mk p n : array_base Nat).end_
        = IterOps.add (array_base.mk p n : array_base Nat).begin
            (array_base.mk p n : array_base Nat).size
      ∧ visitsExactly (array_base.mk p n : array_base Nat).begin
          (array_base.mk p n : array_base Nat).end_ n)
    ∧ ((const_array_base.mk p n : const_array_base Nat).end_
        = IterOps.add (const_array_base.mk p n : const_array_base Nat).begin
            (const_array_base.mk p n : const_array_base Nat).size
      ∧ visitsExactly (const_array_base.mk p n : const_array_base Nat).begin
          (const_array_base.mk p n : const_array_base Nat).end_ n)
    ∧ ((array_mem_stride.mkMem (O := O) d n).end_
        = IterOps.add (array_mem_stride.mkMem (O := O) d n).begin
            (array_mem_stride.mkMem (O := O) d n).size
      ∧ visitsExactly (array_mem_stride.mkMem (O := O) d n).begin
          (array_mem_stride.mkMem (O := O) d n).end_ n)
    ∧ ((const_array_mem_stride.mkMem (O := O) d n).end_
        = IterOps.add (const_array_mem_stride.mkMem (O := O) d n).begin
            (const_array_mem_stride.mkMem (O := O) d n).size
      ∧ visitsExactly (const_array_mem_stride.mkMem (O := O) d n).begin
          (const_array_mem_stride.mkMem (O := O) d n).end_ n)
    ∧ ((func_array.mkFunc f n).end_
        = IterOps.add (func_array.mkFunc f n).begin (func_array.mkFunc f n).size
      ∧ visitsExactly (func_array.mkFunc f n).begin (func_array.mkFunc f n).end_ n)
    ∧ ((const_array_stride.mkStride p n stride).end_
        = IterOps.add (const_array_stride.mkStride p n stride).begin
            (const_array_stride.mkStride p n stride).size
      ∧ visitsExactly (const_array_stride.mkStride p n stride).begin
          (const_array_stride.mkStride p n stride).end_ n) :=
  ⟨⟨rfl, visitsExactly_ptr p n⟩,
   ⟨rfl, visitsExactly_ptr p n⟩,
   ⟨rfl, visitsExactly_mem hO d n⟩,
   ⟨rfl, visitsExactly_cmem hO d n⟩,
   ⟨rfl, visitsExactly_func f n⟩,
   ⟨rfl, visitsExactly_strided p stride hs n⟩⟩

/-- Witness for C1: the index-strided conjunct at `begin = 0`, `size = 2`,
`stride = 2`, with both stride hypotheses discharged concretely. -/
theorem C1_begin_end_traversal_witness :
    visitsExactly (const_array_stride.mkStride 0 2 2 : const_array_stride Nat).begin
      (const_array_stride.mkStride 0 2 2 : const_array_stride Nat).end_ 2 :=
  (C1_begin_end_traversal 0 2 2 4 0 (fun x => x) (by decide) (by decide)).2.2.2.2.2.2

/-- Counterexample to C1 as stated: `const_array_stride` admits a zero
stride (it is even the constructor's default argument), and a strided
sequence of size 1 with stride 0 has `begin() == end()` immediately, so the
begin-to-end walk visits 0 elements, not `size() = 1`. -/
theorem C1_counterexample :
    (const_array_stride.mkStride 0 1 0 : const_array_stride Nat).size = 1
    ∧ ¬ visitsExactly (const_array_stride.mkStride 0 1 0 : const_array_stride Nat).begin
        (const_array_stride.mkStride 0 1 0 : const_array_stride Nat).end_
        (const_array_stride.mkStride 0 1 0 : const_array_stride Nat).size := by
  refine ⟨rfl, fun hvis => ?_⟩
  have h0 := hvis.1 0 (by decide)
  rw [show iterN 0 (const_array_stride.mkStride 0 1 0 : const_array_stride Nat).begin
        = (const_array_stride.mkStride 0 1 0 : const_array_stride Nat).begin from rfl] at h0
  exact absurd h0 (by decide)

/-- Claim C10: for both byte-stride cursors, cursor difference is measured
in raw bytes: `(c + n) - c` equals `n * OffsetN`, not `n`. -/
theorem C10_cursor_distance_bytes {O : Nat} (c : mem_stride_iterator O)
    (c' : const_mem_stride_iterator O) (n : Nat) :
    mem_stride_iterator.sub (IterOps.add c n) c = (n : Int) * (O : Int)
    ∧ const_mem_stride_iterator.sub (IterOps.add c' n) c' = (n : Int) * (O : Int) := by
  constructor
  · show c._data + (O : Int) * (n : Int) - c._data = (n : Int) * (O : Int)
    ring
  · show c'._data + (O : Int) * (n : Int) - c'._data = (n : Int) * (O : Int)
    ring

/-- Claim C5: a byte-stride sequence with byte offset `OffsetN` over byte
address `b` reads, at index `i`, the T-sized value at byte address
`b + i * OffsetN` — for the read-only sequence and for the mutable one. -/
theorem C5_byte_stride_read {O : Nat} {T : Type} (mem : Int → T) (b : Int)
    (size i : Nat) (hi : i < size) :
    (const_array_mem_stride.mkMem (O := O) b size).size = size
    ∧ const_array_mem_stride.read mem (const_array_mem_stride.mkMem (O := O) b size) i
        = mem (b + (i : Int) * (O : Int))
    ∧ array_mem_stride.read mem (array_mem_stride.mkMem (O := O) b size) i
        = mem (b + (i : Int) * (O : Int)) := by
  refine ⟨rfl, ?_, ?_⟩
  · show mem (b + (O : Int) * (i : Int)) = mem (b + (i : Int) * (O : Int))
    rw [mul_comm]
  · show mem (b + (O : Int) * (i : Int)) = mem (b + (i : Int) * (O : Int))
    rw [mul_comm]

/-- Witness for C5: byte offset 12, base address 100, size 3, index 1. -/
theorem C5_byte_stride_read_witness :
    (const_array_mem_stride.mkMem (O := 12) (100 : Int) 3).size = 3
    ∧ const_array_mem_stride.read (fun a => a) (const_array_mem_stride.mkMem (O := 12) (100 : Int) 3) 1
        = ((100 : Int) + (1 : Nat) * ((12 : Nat) : Int))
    ∧ array_mem_stride.read (fun a => a) (array_mem_stride.mkMem (O := 12) (100 : Int) 3) 1
        = ((100 : Int) + (1 : Nat) * ((12 : Nat) : Int)) :=
  C5_byte_stride_read (fun a => a) 100 3 1 (by decide)

/-- Claim C6: a function sequence over `f` of length `n` yields `f i` at
index `i`; each access invokes the stored callable exactly once, with
argument `i` (so two reads at the same index perform two invocations —
nothing is cached). -/
theorem C6_func_array_read {T : Type} (f : Nat → T) (n i : Nat) (hi : i < n) :
    (func_array.mkFunc f n).size = n
    ∧ func_array.read (func_array.mkFunc f n) i = f i
    ∧ func_array.readCalls (func_array.mkFunc f n) i = (f i, [i])
    ∧ (func_array.readCalls (func_array.mkFunc f n) i).2
        ++ (func_array.readCalls (func_array.mkFunc f n) i).2 = [i, i] := by
  refine ⟨rfl, ?_, ?_, ?_⟩
  · show f (0 + i) = f i
    rw [Nat.zero_add]
  · show (f (0 + i), [0 + i]) = (f i, [i])
    rw [Nat.zero_add]
  · show [0 + i] ++ [0 + i] = [i, i]
    rw [Nat.zero_add]
    rfl

/-- Witness for C6: the identity function, length 2, index 1. -/
theorem C6_func_array_read_witness :
    (func_array.mkFunc (fun x => x) 2).size = 2
    ∧ func_array.read (func_array.mkFunc (fun x => x) 2) 1 = 1
    ∧ func_array.readCalls (func_array.mkFunc (fun x => x) 2) 1 = (1, [1])
    ∧ (func_array.readCalls (func_array.mkFunc (fun x => x) 2) 1).2
        ++ (func_array.readCalls (func_array.mkFunc (fun x => x) 2) 1).2 = [1, 1] :=
  C6_func_array_read (fun x => x) 2 1 (by decide)

/-- Claim C2: constructing an owning `array` of length `n` allocates a
fresh block of `n` default-constructed cells and yields a sequence of size
`n` over it; writing through `operator[]` at a valid index `i` and reading
back at `i` yields the written value, and the write leaves every other
valid index `j` unchanged. -/
theorem C2_array_alloc_write_read {T : Type} [Inhabited T] (st : AllocState T)
    (n i j : Nat) (v : T) (hi : i < n) (hj : j < n) (hij : j ≠ i) :
    (array.new st n).1.size = n
    ∧ (∀ k, k < n →
        ptrDeref (array.new st n).2.heap ((array.new st n).1.begin + k) = default)
    ∧ array_base.read (array_base.write (array.new st n).2.heap (array.new st n).1 i v)
        (array.new st n).1 i = v
    ∧ array_base.read (array_base.write (array.new st n).2.heap (array.new st n).1 i v)
        (array.new st n).1 j
        = array_base.read (array.new st n).2.heap (array.new st n).1 j := by
  refine ⟨rfl, ?_, ?_, ?_⟩
  · intro k hk
    show (if st.next ≤ st.next + k ∧ st.next + k < st.next + n then default
          else st.heap (st.next + k)) = default
    rw [if_pos ⟨Nat.le_add_right _ _, by omega⟩]
  · show (if st.next + i = st.next + i then v else _) = v
    rw [if_pos rfl]
  · show (if st.next + j = st.next + i then v else _) = _
    rw [if_neg (by omega)]
    rfl

/-- Witness for C2: a two-element array of naturals over the empty initial
allocation state, writing 7 at index 0 and observing index 1 unchanged. -/
theorem C2_array_alloc_write_read_witness :
    (array.new (AllocState.mk (fun _ => 0) 0) 2).1.size = 2
    ∧ (∀ k, k < 2 →
        ptrDeref (array.new (AllocState.mk (fun _ => (0 : Nat)) 0) 2).2.heap
          ((array.new (AllocState.mk (fun _ => (0 : Nat)) 0) 2).1.begin + k) = default)
    ∧ array_base.read
        (array_base.write (array.new (AllocState.mk (fun _ => (0 : Nat)) 0) 2).2.heap
          (array.new (AllocState.mk (fun _ => (0 : Nat)) 0) 2).1 0 7)
        (array.new (AllocState.mk (fun _ => (0 : Nat)) 0) 2).1 0 = 7
    ∧ array_base.read
        (array_base.write (array.new (AllocState.mk (fun _ => (0 : Nat)) 0) 2).2.heap
          (array.new (AllocState.mk (fun _ => (0 : Nat)) 0) 2).1 0 7)
        (array.new (AllocState.mk (fun _ => (0 : Nat)) 0) 2).1 1
        = array_base.read (array.new (AllocState.mk (fun _ => (0 : Nat)) 0) 2).2.heap
            (array.new (AllocState.mk (fun _ => (0 : Nat)) 0) 2).1 1 :=
  C2_array_alloc_write_read (AllocState.mk (fun _ => 0) 0) 2 0 1 7
    (by decide) (by decide) (by decide)

/-- Claim C3: an `array_view` constructed over an owning `array` has the
same size and, at every valid index, the same element; a write through the
view is the same heap update as the write through the array, so each side's
writes are observable through the other (the two alias one storage). -/
theorem C3_view_aliases_array {T : Type} (h : Nat → T) (a : array) (i : Nat)
    (v : T) (hi : i < a.size) :
    (array_view.ofArray a).size = a.size
    ∧ (∀ j, j < a.size →
        array_base.read h (array_view.ofArray a) j = array_base.read h a j)
    ∧ array_base.write h (array_view.ofArray a) i v = array_base.write h a i v
    ∧ array_base.read (array_base.write h (array_view.ofArray a) i v) a i = v
    ∧ array_base.read (array_base.write h a i v) (array_view.ofArray a) i = v := by
  refine ⟨rfl, fun j _ => rfl, rfl, ?_, ?_⟩
  · show (if a._iter + i = a._iter + i then v else _) = v
    rw [if_pos rfl]
  · show (if a._iter + i = a._iter + i then v else _) = v
    rw [if_pos rfl]

/-- Witness for C3: an array at address 4 of size 3 over the identity heap,
index 2, written value 9. -/
theorem C3_view_aliases_array_witness :
    (array_view.ofArray (array_base.mk 4 3)).size = (array_base.mk 4 3 : array).size
    ∧ (∀ j, j < (array_base.mk 4 3 : array).size →
        array_base.read (fun x => x) (array_view.ofArray (array_base.mk 4 3)) j
          = array_base.read (fun x => x) (array_base.mk 4 3 : array) j)
    ∧ array_base.write (fun x => x) (array_view.ofArray (array_base.mk 4 3)) 2 9
        = array_base.write (fun x => x) (array_base.mk 4 3 : array) 2 9
    ∧ array_base.read (array_base.write (fun x => x) (array_view.ofArray (array_base.mk 4 3)) 2 9)
        (array_base.mk 4 3 : array) 2 = 9
    ∧ array_base.read (array_base.write (fun x => x) (array_base.mk 4 3 : array) 2 9)
        (array_view.ofArray (array_base.mk 4 3)) 2 = 9 :=
  C3_view_aliases_array (fun x => x) (array_base.mk 4 3) 2 9 (by decide)

/-- Counterexample to C4 as stated: the `const_array_stride` constructor
takes its size as an explicit argument and never computes `L / k`, so a
slice of size 5 with stride 3 over a source of length 10 is a
constructible index-strided slice whose size is not `10 / 3 = 3`. -/
theorem C4_counterexample :
    (const_array_stride.mkStride (array_base.mk 0 10 : array_base Nat).begin 5 3).size
      ≠ (array_base.mk 0 10 : array_base Nat).size / 3 := by
  decide

/-- Claim C4 (amended): the slice's size is the count passed at
construction — the canonical whole-source stride passes `L / k`; for a
slice so constructed over a contiguous source of length `L`,
`slice.size() = L / k`, and at every valid slice index `i` the slice reads
the source's element at position `i * k`, which is in bounds of the
source. -/
theorem C4_stride_size_read {T : Type} (h : Nat → T) (src : array_base Nat)
    (k i : Nat) (hi : i < src.size / k) :
    (const_array_stride.mkStride src.begin (src.size / k) k).size = src.size / k
    ∧ const_array_stride.read h (const_array_stride.mkStride src.begin (src.size / k) k) i
        = array_base.read h src (i * k)
    ∧ i * k < src.size := by
  refine ⟨rfl, rfl, ?_⟩
  have hk : 0 < k := by
    rcases Nat.eq_zero_or_pos k with h0 | h0
    · rw [h0, Nat.div_zero] at hi
      omega
    · exact h0
  have h1 : (i + 1) * k ≤ (src.size / k) * k := Nat.mul_le_mul_right k (by omega)
  have h2 : (src.size / k) * k ≤ src.size := Nat.div_mul_le_self _ _
  have h3 : i * k + k = (i + 1) * k := by ring
  omega

/-- Witness for C4: a source of length 10 at address 0 over the identity
heap, stride 3, slice index 2. -/
theorem C4_stride_size_read_witness :
    (const_array_stride.mkStride (array_base.mk 0 10 : array_base Nat).begin
        ((array_base.mk 0 10 : array_base Nat).size / 3) 3).size
      = (array_base.mk 0 10 : array_base Nat).size / 3
    ∧ const_array_stride.read (fun x => x)
        (const_array_stride.mkStride (array_base.mk 0 10 : array_base Nat).begin
          ((array_base.mk 0 10 : array_base Nat).size / 3) 3) 2
        = array_base.read (fun x => x) (array_base.mk 0 10 : array_base Nat) (2 * 3)
    ∧ 2 * 3 < (array_base.mk 0 10 : array_base Nat).size :=
  C4_stride_size_read (fun x => x) (array_base.mk 0 10) 3 2 (by decide)

/-- Claim C7: the sub-range of a contiguous sequence at `[offset,
offset+len)` — built by advancing the source's begin cursor by `offset`
and taking `len` as the size, with no copy and no allocation — reads, at
every valid index `i`, the source's element at `offset + i`. -/
theorem C7_subrange_read {T : Type} (h : Nat → T) (src : array_base Nat)
    (offset len i : Nat) (hrange : offset + len ≤ src.size) (hi : i < len) :
    (array_slice.subrange src offset len).size = len
    ∧ (array_slice.subrange src offset len).begin = IterOps.add src.begin offset
    ∧ array_base.read h (array_slice.subrange src offset len) i
        = array_base.read h src (offset + i) := by
  refine ⟨rfl, rfl, ?_⟩
  show h (src._iter + offset + i) = h (src._iter + (offset + i))
  rw [Nat.add_assoc]

/-- Witness for C7: the sub-range `[2, 5)` of a length-10 sequence at
address 5, read at index 1, over the identity heap. -/
theorem C7_subrange_read_witness :
    (array_slice.subrange (array_base.mk 5 10) 2 3).size = 3
    ∧ (array_slice.subrange (array_base.mk 5 10) 2 3).begin
        = IterOps.add (array_base.mk 5 10 : array_base Nat).begin 2
    ∧ array_base.read (fun x => x) (array_slice.subrange (array_base.mk 5 10) 2 3) 1
        = array_base.read (fun x => x) (array_base.mk 5 10 : array_base Nat) (2 + 1) :=
  C7_subrange_read (fun x => x) (array_base.mk 5 10) 2 3 1 (by decide) (by decide)

/-- Claim C8: both `array_view` and `const_array_view` are constructible
from an owning `array` by taking its cursor/length pair, and every
operation of the view contract — size, empty, begin, end, indexed read —
gives the same result on the views as on the array itself. -/
theorem C8_views_match_array {T : Type} (h : Nat → T) (a : array) (i : Nat)
    (hi : i < a.size) :
    (array_view.ofArray a).size = a.size
    ∧ (const_array_view.ofArray a).size = a.size
    ∧ (array_view.ofArray a).empty = a.empty
    ∧ (const_array_view.ofArray a).empty = a.empty
    ∧ (array_view.ofArray a).begin = a.begin
    ∧ (const_array_view.ofArray a).begin = a.begin
    ∧ (array_view.ofArray a).end_ = a.end_
    ∧ (const_array_view.ofArray a).end_ = a.end_
    ∧ array_base.read h (array_view.ofArray a) i = array_base.read h a i
    ∧ const_array_base.read h (const_array_view.ofArray a) i = array_base.read h a i :=
  ⟨rfl, rfl, rfl, rfl, rfl, rfl, rfl, rfl, rfl, rfl⟩

/-- Witness for C8: an array at address 3 of size 4 over the identity heap,
index 2. -/
theorem C8_views_match_array_witness :
    (array_view.ofArray (array_base.mk 3 4)).size = (array_base.mk 3 4 : array).size
    ∧ (const_array_view.ofArray (array_base.mk 3 4)).size = (array_base.mk 3 4 : array).size
    ∧ (array_view.ofArray (array_base.mk 3 4)).empty = (array_base.mk 3 4 : array).empty
    ∧ (const_array_view.ofArray (array_base.mk 3 4)).empty = (array_base.mk 3 4 : array).empty
    ∧ (array_view.ofArray (array_base.mk 3 4)).begin = (array_base.mk 3 4 : array).begin
    ∧ (const_array_view.ofArray (array_base.mk 3 4)).begin = (array_base.mk 3 4 : array).begin
    ∧ (array_view.ofArray (array_base.mk 3 4)).end_ = (array_base.mk 3 4 : array).end_
    ∧ (const_array_view.ofArray (array_base.mk 3 4)).end_ = (array_base.mk 3 4 : array).end_
    ∧ array_base.read (fun x => x) (array_view.ofArray (array_base.mk 3 4)) 2
        = array_base.read (fun x => x) (array_base.mk 3 4 : array) 2
    ∧ const_array_base.read (fun x => x) (const_array_view.ofArray (array_base.mk 3 4)) 2
        = array_base.read (fun x => x) (array_base.mk 3 4 : array) 2 :=
  C8_views_match_array (fun x => x) (array_base.mk 3 4) 2 (by decide)

/-- Claim C9: the destructor of a freshly allocated owning `array` releases
exactly its allocated block, once; the (implicit) destructor of every
non-owning variant — any sequence built on `array_base` or
`const_array_base` — releases nothing. -/
theorem C9_destroy_releases_once {T : Type} [Inhabited T] (st : AllocState T)
    (n : Nat) {ι κ : Type} (w : array_base ι) (c : const_array_base κ) :
    array.destroy (array.new st n).1 = [(array.new st n).1.begin]
    ∧ (array.destroy (array.new st n).1).count ((array.new st n).1.begin) = 1
    ∧ array_base.destroy w = []
    ∧ const_array_base.destroy c = [] := by
  refine ⟨rfl, ?_, rfl, rfl⟩
  simp [array.destroy]

end ara3d
